import Mathlib

/-!
# Verification of the Cambio game core (`state_store.py`, `main.py`)

This file is a shallow embedding of the Cambio card-game session core.
Cards are the strings of the Python code (rank token ++ one-character suit
token); the session state mirrors the `state` dict of `create_game`; the
in-memory store `_game_store` is an association list.  Python's `random.shuffle`
is abstracted by passing the (arbitrary) shuffled deck as a parameter, and the
uuid by passing the game id.  Functions that can raise an uncaught Python
exception (IndexError, StopIteration, ValueError in `int(...)`) return an
`Option` / a dedicated `error` constructor in that case.
-/

namespace Cambio

/-- One entry of a hand: a `{"card": ..., "visible": ...}` dict. -/
structure CardSlot where
  card : String
  visible : Bool
deriving DecidableEq, Repr

/-- One entry of the `players` list of a session. -/
structure Player where
  player_id : String
  name : String
  seat : Nat
  hand : List CardSlot
  score : Nat
deriving DecidableEq, Repr

/-- One entry of the `history` list of a session. -/
structure HistoryEntry where
  turn : Nat
  player : String
  action : String
deriving DecidableEq, Repr

/-- The `metadata` sub-dict of a session. -/
structure Metadata where
  started_at : String
  round : Nat
deriving DecidableEq, Repr

/-- A game session: the `state` dict built by `create_game`.
`top_discard` is `none` when the Python value is `None`. -/
structure GameState where
  game_id : String
  variant : String
  players : List Player
  draw_pile : List String
  draw_pile_count : Nat
  top_discard : Option String
  current_player : String
  turn_phase : String
  history : List HistoryEntry
  metadata : Metadata
deriving DecidableEq, Repr

/-- A move dict: `move.get("type")` and `move.get("slot")`.  The slot is an
`Int` because the Python code checks `slot < 0`. -/
structure Move where
  type : Option String
  slot : Option Int
deriving DecidableEq, Repr

/-- The suits of `create_deck`. -/
def suits : List String := ["H", "D", "C", "S"]

/-- The ranks of `create_deck`. -/
def ranks : List String := ["A", "2", "3", "4", "5", "6", "7", "8", "9", "10", "J", "Q", "K"]

/-- `create_deck` before the shuffle: all 52 `rank ++ suit` strings, suits
outermost, exactly as the Python comprehension builds them.  The shuffle is
modelled by quantifying over permutations of this list where it matters. -/
def create_deck : List String :=
  (suits.map (fun su => ranks.map (fun r => r ++ su))).flatten

/-- The value of one decimal digit character. -/
def digitVal (c : Char) : Option Nat :=
  if c = '0' then some 0 else if c = '1' then some 1 else if c = '2' then some 2
  else if c = '3' then some 3 else if c = '4' then some 4 else if c = '5' then some 5
  else if c = '6' then some 6 else if c = '7' then some 7 else if c = '8' then some 8
  else if c = '9' then some 9 else none

/-- Accumulate decimal digits; `none` on a non-digit. -/
def digitsVal : Nat → List Char → Option Nat
  | acc, [] => some acc
  | acc, c :: cs =>
      match digitVal c with
      | none => none
      | some d => digitsVal (acc * 10 + d) cs

/-- Python's `int(s)` on a rank string: the decimal value of a non-empty
digit string, `none` (a raised ValueError) otherwise. -/
def int_of_string (s : String) : Option Nat :=
  match s.data with
  | [] => none
  | c :: cs => digitsVal 0 (c :: cs)

/-- `get_card_value`: `none` models the uncaught ValueError of `int(rank)` on a
malformed card; the empty string returns 0 (`if not card`). -/
def get_card_value (card : String) : Option Nat :=
  if card = "" then some 0
  else
    let rank := card.dropRight 1
    if rank = "K" then some 0
    else if rank = "Q" then some 12
    else if rank = "J" then some 11
    else if rank = "A" then some 1
    else int_of_string rank

/-- The hand dealt from `deck` at offset `idx`: slots `idx..idx+3`, with
slots 0 and 2 made visible (initial peek rule).  `none` models the IndexError
when the deck is too short. -/
def mkHand (deck : List String) (idx : Nat) : Option (List CardSlot) :=
  match deck.get? idx, deck.get? (idx + 1), deck.get? (idx + 2), deck.get? (idx + 3) with
  | some a, some b, some c, some d =>
      some [⟨a, true⟩, ⟨b, false⟩, ⟨c, true⟩, ⟨d, false⟩]
  | _, _, _, _ => none

/-- The dealing loop of `create_game`: player `i` (0-based) gets id `p(i+1)`,
seat `i`, and the 4 cards at offset `idx`. -/
def deal (deck : List String) : List String → Nat → Nat → Option (List Player)
  | [], _, _ => some []
  | name :: rest, idx, i =>
      match mkHand deck idx with
      | none => none
      | some hand =>
          match deal deck rest (idx + 4) (i + 1) with
          | none => none
          | some ps => some ({ player_id := "p" ++ toString (i + 1), name := name,
                               seat := i, hand := hand, score := 0 } :: ps)

/-- `create_game`: `game_id` stands for the generated uuid and `deck` for the
shuffled deck.  An empty `player_names` list models the falsy default
(`None` or `[]`), replaced by the two default names.  `none` models the
uncaught IndexError when the deck runs out while dealing. -/
def create_game (game_id : String) (deck : List String)
    (player_names : List String) : Option GameState :=
  let names := if player_names.isEmpty then ["Player1", "Player2"] else player_names
  match deal deck names 0 0 with
  | none => none
  | some players =>
      some { game_id := game_id
             variant := "cambio_standard"
             players := players
             draw_pile := deck.drop (4 * names.length)
             draw_pile_count := (deck.drop (4 * names.length)).length
             top_discard := none
             current_player := "p1"
             turn_phase := "awaiting_action"
             history := []
             metadata := { started_at := "2025-10-25T08:00:00Z", round := 1 } }

/-- Python truthiness of the `top_discard` field: `None` and `""` are falsy. -/
def truthyDiscard : Option String → Bool
  | none => false
  | some s => s ≠ ""

/-- `str(move_type)` as used in the unknown-move reason f-string. -/
def moveTypeStr : Option String → String
  | none => "None"
  | some t => t

/-- The body of `validate_move` after the store lookup: a pure predicate on one
session and a candidate move, returning `(legal, reason)`. -/
def validate_move_state (state : GameState) (move : Move) : Bool × Option String :=
  if state.turn_phase = "round_end" then (false, some "Round has ended")
  else if move.type = some "draw_deck" then
    if state.draw_pile_count = 0 then (false, some "Draw pile is empty")
    else (true, none)
  else if move.type = some "draw_discard_swap" then
    if !truthyDiscard state.top_discard then (false, some "No card in discard pile")
    else
      match move.slot with
      | none => (false, some "Invalid slot")
      | some slot =>
          if slot < 0 ∨ slot > 3 then (false, some "Invalid slot") else (true, none)
  else if move.type = some "peek" then
    match move.slot with
    | none => (false, some "Invalid slot")
    | some slot =>
        if slot < 0 ∨ slot > 3 then (false, some "Invalid slot") else (true, none)
  else if move.type = some "call_cambio" then (true, none)
  else (false, some ("Unknown move type: " ++ moveTypeStr move.type))

/-- The in-memory `_game_store`, as an association list game-id → state. -/
def Store := List (String × GameState)

/-- Store lookup, `_game_store.get(game_id)`. -/
def storeGet (store : Store) (game_id : String) : Option GameState :=
  match store with
  | [] => none
  | kv :: rest => if kv.1 = game_id then some kv.2 else storeGet rest game_id

/-- Store an updated state under an id (in-place mutation of the stored dict). -/
def storeSet (store : Store) (game_id : String) (s : GameState) : Store :=
  match store with
  | [] => [(game_id, s)]
  | kv :: rest =>
      if kv.1 = game_id then (game_id, s) :: rest else kv :: storeSet rest game_id s

/-- `validate_move(game_id, move)`: store lookup, then the pure validator. -/
def validate_move (store : Store) (game_id : String) (move : Move) :
    Bool × Option String :=
  match storeGet store game_id with
  | none => (false, some "Game not found")
  | some state => validate_move_state state move

/-- `next(p for p in players if p["player_id"] == pid)` together with the list
index of that first match; `none` models the uncaught StopIteration. -/
def find_player : List Player → String → Option (Nat × Player)
  | [], _ => none
  | p :: rest, pid =>
      if p.player_id = pid then some (0, p)
      else
        match find_player rest pid with
        | none => none
        | some (i, q) => some (i + 1, q)

/-- Sum of `get_card_value` over a list of cards; `none` if any value raises. -/
def sumValues : List String → Option Nat
  | [] => some 0
  | c :: rest =>
      match get_card_value c, sumValues rest with
      | some v, some s => some (v + s)
      | _, _ => none

/-- `sum(get_card_value(c["card"]) for c in player["hand"])`. -/
def hand_score (hand : List CardSlot) : Option Nat :=
  sumValues (hand.map (fun cs => cs.card))

/-- The `call_cambio` loop over players: reveal all 4 slots and store the hand
score.  `none` models an uncaught ValueError while scoring. -/
def scoreAll : List Player → Option (List Player)
  | [] => some []
  | p :: rest =>
      match hand_score p.hand, scoreAll rest with
      | some v, some rest' =>
          let revealed := p.hand.map (fun cs => { cs with visible := true })
          some ({ p with hand := revealed, score := v } :: rest')
      | _, _ => none

/-- Result of applying one move to one session. `error` models an uncaught
Python exception inside the executor. -/
inductive ApplyResult where
  | rejected (reason : Option String)
  | accepted (s' : GameState) (roundEnd : Bool)
  | error
deriving DecidableEq, Repr

/-- The history record appended by every accepted move. -/
def mkEntry (s : GameState) (action : String) : HistoryEntry :=
  { turn := s.history.length + 1, player := s.current_player, action := action }

/-- Turn advance: `current_player := players[(idx + 1) % len(players)]`, where
`idx` is the index of the acting player (the first list entry whose
`player_id` matches, which is what both `next(...)` and `players.index(...)`
find since earlier entries have different ids). -/
def advanceTurn (s : GameState) (idx : Nat) : ApplyResult :=
  match s.players.get? ((idx + 1) % s.players.length) with
  | none => ApplyResult.error
  | some np => ApplyResult.accepted { s with current_player := np.player_id } false

/-- The executor part of `apply_move`, reached only after validation; `cur` is
the acting player found at index `idx`. -/
def execMove (s : GameState) (move : Move) (idx : Nat) (cur : Player) : ApplyResult :=
  if move.type = some "draw_deck" then
    match s.draw_pile with
    | [] => ApplyResult.error
    | drawn :: rest =>
        advanceTurn
          { s with draw_pile := rest, draw_pile_count := rest.length,
                   top_discard := some drawn,
                   history := s.history ++ [mkEntry s "drew from deck"] } idx
  else if move.type = some "draw_discard_swap" then
    match move.slot with
    | none => ApplyResult.error
    | some slot =>
        match cur.hand.get? slot.toNat, s.top_discard with
        | some oldSlot, some d =>
            let cur' := { cur with hand := cur.hand.set slot.toNat ⟨d, true⟩ }
            advanceTurn
              { s with players := s.players.set idx cur',
                       top_discard := some oldSlot.card,
                       history := s.history ++
                         [mkEntry s ("drew from discard and swapped slot " ++ toString slot)] } idx
        | _, _ => ApplyResult.error
  else if move.type = some "peek" then
    match move.slot with
    | none => ApplyResult.error
    | some slot =>
        match cur.hand.get? slot.toNat with
        | none => ApplyResult.error
        | some oldSlot =>
            let cur' := { cur with hand := cur.hand.set slot.toNat { oldSlot with visible := true } }
            advanceTurn
              { s with players := s.players.set idx cur',
                       history := s.history ++
                         [mkEntry s ("peeked at slot " ++ toString slot)] } idx
  else if move.type = some "call_cambio" then
    match scoreAll s.players with
    | none => ApplyResult.error
    | some players' =>
        ApplyResult.accepted
          { s with players := players', turn_phase := "round_end",
                   history := s.history ++ [mkEntry s "called Cambio!"] } true
  else ApplyResult.error

/-- `apply_move` restricted to one session: validate, find the acting player,
then execute. -/
def apply_move_state (s : GameState) (move : Move) : ApplyResult :=
  match validate_move_state s move with
  | (false, reason) => ApplyResult.rejected reason
  | (true, _) =>
      match find_player s.players s.current_player with
      | none => ApplyResult.error
      | some (idx, cur) => execMove s move idx cur

/-- The dict returned by `apply_move`. -/
inductive MoveResult where
  | invalid (reason : Option String)
  | valid (state : GameState) (roundEnd : Bool)
deriving DecidableEq, Repr

/-- `apply_move(game_id, move)` over the store; the returned store is the
store after the call (`none` models an uncaught exception). -/
def apply_move (store : Store) (game_id : String) (move : Move) :
    Option (MoveResult × Store) :=
  match storeGet store game_id with
  | none => some (MoveResult.invalid (some "Game not found"), store)
  | some s =>
      match apply_move_state s move with
      | ApplyResult.rejected r => some (MoveResult.invalid r, store)
      | ApplyResult.accepted s' re =>
          some (MoveResult.valid s' re, storeSet store game_id s')
      | ApplyResult.error => none

/-- A PATCH body: each field present in the dict overwrites the corresponding
top-level field of the stored state (`state.update(patch)`). -/
structure Patch where
  game_id : Option String := none
  variant : Option String := none
  players : Option (List Player) := none
  draw_pile : Option (List String) := none
  draw_pile_count : Option Nat := none
  top_discard : Option (Option String) := none
  current_player : Option String := none
  turn_phase : Option String := none
  history : Option (List HistoryEntry) := none
  metadata : Option Metadata := none
deriving DecidableEq, Repr

/-- `state.update(patch)`: every key present in the patch overwrites the
stored value; absent keys are untouched.  No validation of any kind. -/
def applyPatch (s : GameState) (p : Patch) : GameState :=
  { game_id := p.game_id.getD s.game_id
    variant := p.variant.getD s.variant
    players := p.players.getD s.players
    draw_pile := p.draw_pile.getD s.draw_pile
    draw_pile_count := p.draw_pile_count.getD s.draw_pile_count
    top_discard := p.top_discard.getD s.top_discard
    current_player := p.current_player.getD s.current_player
    turn_phase := p.turn_phase.getD s.turn_phase
    history := p.history.getD s.history
    metadata := p.metadata.getD s.metadata }

/-- `patch_state(game_id, patch)`: `none` models the raised ValueError when the
game id is not in the store; otherwise the stored dict is updated in place and
a copy returned. -/
def patch_state (store : Store) (game_id : String) (p : Patch) :
    Option (GameState × Store) :=
  match storeGet store game_id with
  | none => none
  | some s => some (applyPatch s p, storeSet store game_id (applyPatch s p))

/-- An HTTPException raised by the FastAPI layer in `main.py`. -/
structure HTTPError where
  status_code : Nat
  detail : Option String
deriving DecidableEq, Repr

/-- `GET /games/\x7bgame_id\x7d`: 404 when the id is unknown. -/
def get_game_endpoint (store : Store) (game_id : String) :
    Except HTTPError GameState :=
  match storeGet store game_id with
  | none => Except.error { status_code := 404, detail := some "Game not found" }
  | some s => Except.ok s

/-- `PATCH /games/\x7bgame_id\x7d`: calls `patch_state`, turning its ValueError
into a 404. -/
def patch_game_endpoint (store : Store) (game_id : String) (p : Patch) :
    Except HTTPError GameState × Store :=
  match patch_state store game_id p with
  | none =>
      (Except.error { status_code := 404,
                      detail := some ("Game " ++ game_id ++ " not found") }, store)
  | some (s', store') => (Except.ok s', store')

/-- `POST /games/\x7bgame_id\x7d/moves`: calls `apply_move` and raises a 400
HTTPException with the reason whenever the result is not valid — including the
"Game not found" rejection. -/
def submit_move_endpoint (store : Store) (game_id : String) (move : Move) :
    Option (Except HTTPError MoveResult × Store) :=
  match apply_move store game_id move with
  | none => none
  | some (MoveResult.invalid reason, store') =>
      some (Except.error { status_code := 400, detail := reason }, store')
  | some (r, store') => some (Except.ok r, store')

/-- The multiset of cards in a player's hand. -/
def handCards (p : Player) : Multiset String :=
  (p.hand.map (fun cs => cs.card) : List String)

/-- The multiset of cards across all hands. -/
def playersCards (ps : List Player) : Multiset String :=
  (ps.map handCards).sum

/-- The (zero- or one-element) multiset of cards held by the discard top. -/
def discardCards : Option String → Multiset String
  | none => 0
  | some d => {d}

/-- All cards in play: draw pile + every hand + the discard top. -/
def allCards (s : GameState) : Multiset String :=
  (s.draw_pile : Multiset String) + playersCards s.players + discardCards s.top_discard

/-- Modelled from the spec: the scoring table of §4.4 as rank token → value
(K → 0, A → 1, numeric rank → face value, J → 11, Q → 12), used to compare the
code's `get_card_value` against the spec's words. -/
def rank_values : List (String × Nat) :=
  [("A", 1), ("2", 2), ("3", 3), ("4", 4), ("5", 5), ("6", 6), ("7", 7),
   ("8", 8), ("9", 9), ("10", 10), ("J", 11), ("Q", 12), ("K", 0)]

/-- Modelled from the spec: the value of each of the 52 card strings, keyed by
`rank ++ suit`. -/
def spec_card_values : List (String × Nat) :=
  (suits.map (fun su => rank_values.map (fun rv => (rv.1 ++ su, rv.2)))).flatten

/-- Modelled from the spec: the spec-side card value, defined for exactly the
52 well-formed cards. -/
def spec_value (c : String) : Option Nat :=
  (spec_card_values.find? (fun rv => rv.1 = c)).map (fun rv => rv.2)

/-- Modelled from the spec: the spec-side hand value, the sum of the table
values of the 4 slots (defined only when every card is well-formed). -/
def spec_sum : List CardSlot → Option Nat
  | [] => some 0
  | cs :: rest =>
      match spec_value cs.card, spec_sum rest with
      | some v, some s => some (v + s)
      | _, _ => none

/-- Iterated move submission: apply each move in turn, a rejected (or crashing)
submission leaving the session unchanged. -/
def runMoves (s : GameState) : List Move → GameState
  | [] => s
  | m :: ms =>
      match apply_move_state s m with
      | ApplyResult.accepted s' _ => runMoves s' ms
      | _ => runMoves s ms

/-- A fallback state used only as the default of `Option.getD` below. -/
def dummyState : GameState :=
  { game_id := "", variant := "", players := [], draw_pile := [],
    draw_pile_count := 0, top_discard := none, current_player := "",
    turn_phase := "", history := [], metadata := { started_at := "", round := 0 } }

/-- A small concrete deck used to exercise the theorems on concrete inputs. -/
def demoDeck : List String :=
  ["AH", "2H", "3H", "4H", "5H", "6H", "7H", "8H", "9H", "10H"]

/-- The session created from `demoDeck` for two players. -/
def demoState : GameState :=
  (create_game "demo" demoDeck ["Alice", "Bob"]).getD dummyState

/-- The demo session with its round ended. -/
def demoEndState : GameState :=
  { demoState with turn_phase := "round_end" }

/-- The demo session after an accepted `draw_deck` by p1. -/
def demoAfterDraw : GameState :=
  match apply_move_state demoState ⟨some "draw_deck", none⟩ with
  | ApplyResult.accepted s' _ => s'
  | _ => dummyState

/-- The demo session after p1 draws and p2 swaps the discard into slot 1. -/
def demoAfterSwap : GameState :=
  match apply_move_state demoAfterDraw ⟨some "draw_discard_swap", some 1⟩ with
  | ApplyResult.accepted s' _ => s'
  | _ => dummyState

/-- The demo session after an accepted `call_cambio` by p1. -/
def demoCambio : GameState :=
  match apply_move_state demoState ⟨some "call_cambio", none⟩ with
  | ApplyResult.accepted s' _ => s'
  | _ => dummyState

/-! ## Helper lemmas -/

/-- Replacing the element at `k` exchanges it for the new value in the
multiset of elements. -/
theorem coe_set_add {α : Type} (l : List α) (k : Nat) (x y : α)
    (hk : l.get? k = some y) :
    ((l.set k x : List α) : Multiset α) + {y} = (l : Multiset α) + {x} := by
  induction l generalizing k with
  | nil => simp at hk
  | cons a t ih =>
    cases k with
    | zero =>
      simp only [List.get?_cons_zero, Option.some.injEq] at hk
      rw [← hk]
      show (x ::ₘ (t : Multiset α)) + {a} = (a ::ₘ (t : Multiset α)) + {x}
      rw [← Multiset.singleton_add, ← Multiset.singleton_add]
      abel
    | succ k =>
      simp only [List.get?_cons_succ] at hk
      show (a ::ₘ ((t.set k x : List α) : Multiset α)) + {y}
          = (a ::ₘ (t : Multiset α)) + {x}
      rw [Multiset.cons_add, Multiset.cons_add, ih k hk]

/-- Replacing one player exchanges that player's hand cards in the combined
hand multiset. -/
theorem playersCards_set (ps : List Player) (k : Nat) (p p' : Player)
    (hk : ps.get? k = some p) :
    playersCards (ps.set k p') + handCards p = playersCards ps + handCards p' := by
  induction ps generalizing k with
  | nil => simp at hk
  | cons a t ih =>
    cases k with
    | zero =>
      simp only [List.get?_cons_zero, Option.some.injEq] at hk
      rw [← hk]
      show (handCards p' + playersCards t) + handCards a
          = (handCards a + playersCards t) + handCards p'
      abel
    | succ k =>
      simp only [List.get?_cons_succ] at hk
      show (handCards a + playersCards (t.set k p')) + handCards p
          = (handCards a + playersCards t) + handCards p'
      rw [add_assoc, ih k hk, ← add_assoc]

/-- `find_player` returns the first list entry with the requested id, together
with its index. -/
theorem find_player_spec (ps : List Player) (pid : String) (i : Nat) (p : Player)
    (h : find_player ps pid = some (i, p)) :
    ps.get? i = some p ∧ p.player_id = pid := by
  induction ps generalizing i with
  | nil => simp [find_player] at h
  | cons a t ih =>
    by_cases ha : a.player_id = pid
    · simp [find_player, ha] at h
      obtain ⟨hi, hp⟩ := h
      subst hi; subst hp
      exact ⟨rfl, ha⟩
    · simp only [find_player, ha, if_false] at h
      cases hrec : find_player t pid with
      | none => rw [hrec] at h; cases h
      | some iq =>
        obtain ⟨j, q⟩ := iq
        rw [hrec] at h
        simp only [Option.some.injEq, Prod.mk.injEq] at h
        obtain ⟨hi, hp⟩ := h
        subst hp
        subst hi
        exact ih j hrec

/-- Exchanging one slot of one player's hand exchanges exactly that card in
the combined hand multiset. -/
theorem swap_playersCards (ps : List Player) (i : Nat) (cur : Player) (n : Nat)
    (old x : CardSlot) (hi : ps.get? i = some cur)
    (hn : cur.hand.get? n = some old) :
    playersCards (ps.set i { cur with hand := cur.hand.set n x }) + {old.card}
      = playersCards ps + {x.card} := by
  set cur' : Player := { cur with hand := cur.hand.set n x } with hcur'
  have h1 : playersCards (ps.set i cur') + handCards cur
      = playersCards ps + handCards cur' := playersCards_set ps i cur cur' hi
  have hmap : (cur.hand.map (fun cs => cs.card)).get? n = some old.card := by
    rw [List.get?_map, hn]; rfl
  have h2 : handCards cur' + {old.card} = handCards cur + {x.card} := by
    show (((cur.hand.set n x).map (fun cs => cs.card) : List String) : Multiset String)
        + {old.card} = _
    rw [List.map_set]
    exact coe_set_add (cur.hand.map (fun cs => cs.card)) n x.card old.card hmap
  apply add_right_cancel (b := handCards cur)
  calc (playersCards (ps.set i cur') + {old.card}) + handCards cur
      = (playersCards (ps.set i cur') + handCards cur) + {old.card} := by abel
    _ = (playersCards ps + handCards cur') + {old.card} := by rw [h1]
    _ = playersCards ps + (handCards cur' + {old.card}) := by abel
    _ = playersCards ps + (handCards cur + {x.card}) := by rw [h2]
    _ = (playersCards ps + {x.card}) + handCards cur := by abel

/-- Scoring a round (`call_cambio` loop) does not change the cards in hands. -/
theorem scoreAll_cards (ps ps' : List Player) (h : scoreAll ps = some ps') :
    playersCards ps' = playersCards ps := by
  induction ps generalizing ps' with
  | nil => simp [scoreAll] at h; subst h; rfl
  | cons p t ih =>
    simp only [scoreAll] at h
    cases hv : hand_score p.hand with
    | none => rw [hv] at h; cases h
    | some v =>
      rw [hv] at h
      cases hr : scoreAll t with
      | none => rw [hr] at h; cases h
      | some t' =>
        rw [hr] at h
        simp only [Option.some.injEq] at h
        subst h
        simp only [playersCards, List.map_cons, List.sum_cons]
        rw [show (t'.map handCards).sum = (t.map handCards).sum from ih t' hr]
        congr 1
        simp only [handCards, List.map_map]
        exact congrArg _ (List.map_congr_left (fun cs _ => rfl))

/-- Inversion of `advanceTurn`: the only change is `current_player`, set to
the player after `idx` in list order (wrapping), and the result is
non-terminal. -/
theorem advanceTurn_inv (s : GameState) (idx : Nat) (s' : GameState) (re : Bool)
    (h : advanceTurn s idx = ApplyResult.accepted s' re) :
    (∃ np, s.players.get? ((idx + 1) % s.players.length) = some np ∧
      s' = { s with current_player := np.player_id }) ∧ re = false := by
  unfold advanceTurn at h
  cases hg : s.players.get? ((idx + 1) % s.players.length) with
  | none => rw [hg] at h; cases h
  | some np =>
    rw [hg] at h
    injection h with h1 h2
    exact ⟨⟨np, rfl, h1.symm⟩, h2.symm⟩

/-- `allCards` only reads the piles and hands, so updating `current_player`
leaves it unchanged. -/
theorem allCards_current (s : GameState) (pid : String) :
    allCards { s with current_player := pid } = allCards s := rfl

/-- Card accounting for one accepted move: the multiset of cards in play is
unchanged, except that an accepted `draw_deck` with a non-empty discard drops
exactly the superseded discard top. -/
theorem allCards_step (s : GameState) (m : Move) (s' : GameState) (re : Bool)
    (h : apply_move_state s m = ApplyResult.accepted s' re) :
    allCards s' = allCards s ∨
      (m.type = some "draw_deck" ∧ ∃ d, s.top_discard = some d ∧
        allCards s = allCards s' + {d}) := by
  unfold apply_move_state at h
  cases hv : validate_move_state s m with
  | mk valid reason =>
    rw [hv] at h
    cases valid with
    | false => simp at h
    | true =>
      simp only at h
      cases hf : find_player s.players s.current_player with
      | none => rw [hf] at h; cases h
      | some ic =>
        obtain ⟨idx, cur⟩ := ic
        rw [hf] at h
        replace h : execMove s m idx cur = ApplyResult.accepted s' re := h
        have hcur := find_player_spec s.players s.current_player idx cur hf
        unfold execMove at h
        by_cases h1 : m.type = some "draw_deck"
        · rw [if_pos h1] at h
          cases hp : s.draw_pile with
          | nil => rw [hp] at h; cases h
          | cons drawn rest =>
            rw [hp] at h
            obtain ⟨⟨np, hnp, hs'⟩, hre⟩ := advanceTurn_inv _ _ _ _ h
            subst hs'
            cases htd : s.top_discard with
            | none =>
              left
              show ((rest : Multiset String) + playersCards s.players + {drawn})
                  = allCards s
              unfold allCards
              rw [hp, htd]
              show _ = ((drawn :: rest : List String) : Multiset String)
                  + playersCards s.players + 0
              rw [← Multiset.cons_coe, ← Multiset.singleton_add]
              abel
            | some d =>
              right
              refine ⟨h1, d, rfl, ?_⟩
              show allCards s
                  = ((rest : Multiset String) + playersCards s.players + {drawn}) + {d}
              unfold allCards
              rw [hp, htd]
              show ((drawn :: rest : List String) : Multiset String)
                  + playersCards s.players + {d} = _
              rw [← Multiset.cons_coe, ← Multiset.singleton_add]
              abel
        · rw [if_neg h1] at h
          by_cases h2 : m.type = some "draw_discard_swap"
          · rw [if_pos h2] at h
            cases hs : m.slot with
            | none => rw [hs] at h; cases h
            | some slot =>
              rw [hs] at h
              simp only at h
              split at h
              · rename_i oldSlot d hh htd
                obtain ⟨⟨np, hnp, hs'⟩, hre⟩ := advanceTurn_inv _ _ _ _ h
                subst hs'
                left
                have hswap := swap_playersCards s.players idx cur slot.toNat
                  oldSlot ⟨d, true⟩ hcur.1 hh
                show (s.draw_pile : Multiset String) + playersCards (s.players.set idx { cur with hand := cur.hand.set slot.toNat ⟨d, true⟩ }) + {oldSlot.card} = allCards s
                unfold allCards
                rw [htd, add_assoc, hswap, ← add_assoc]
                rfl
              · cases h
          · rw [if_neg h2] at h
            by_cases h3 : m.type = some "peek"
            · rw [if_pos h3] at h
              cases hs : m.slot with
              | none => rw [hs] at h; cases h
              | some slot =>
                rw [hs] at h
                simp only at h
                split at h
                · cases h
                · rename_i oldSlot hh
                  obtain ⟨⟨np, hnp, hs'⟩, hre⟩ := advanceTurn_inv _ _ _ _ h
                  subst hs'
                  left
                  have hswap := swap_playersCards s.players idx cur slot.toNat
                    oldSlot { oldSlot with visible := true } hcur.1 hh
                  have hps : playersCards (s.players.set idx { cur with hand := cur.hand.set slot.toNat { oldSlot with visible := true } }) = playersCards s.players := by
                    apply add_right_cancel (b := ({oldSlot.card} : Multiset String))
                    exact hswap
                  show (s.draw_pile : Multiset String) + playersCards (s.players.set idx { cur with hand := cur.hand.set slot.toNat { oldSlot with visible := true } }) + discardCards s.top_discard = allCards s
                  unfold allCards
                  rw [hps]
            · rw [if_neg h3] at h
              by_cases h4 : m.type = some "call_cambio"
              · rw [if_pos h4] at h
                cases hsc : scoreAll s.players with
                | none => rw [hsc] at h; cases h
                | some players' =>
                  rw [hsc] at h
                  injection h with hs' hre
                  subst hs'
                  left
                  unfold allCards
                  rw [scoreAll_cards s.players players' hsc]
              · rw [if_neg h4] at h
                cases h

/-- A successful 4-card deal pins down the four deck positions used. -/
theorem mkHand_inv (deck : List String) (idx : Nat) (hand : List CardSlot)
    (h : mkHand deck idx = some hand) :
    ∃ a b c d, deck.get? idx = some a ∧ deck.get? (idx + 1) = some b ∧
      deck.get? (idx + 2) = some c ∧ deck.get? (idx + 3) = some d ∧
      hand = [⟨a, true⟩, ⟨b, false⟩, ⟨c, true⟩, ⟨d, false⟩] := by
  unfold mkHand at h
  split at h
  · rename_i a b c d ha hb hc hd
    injection h with h
    exact ⟨a, b, c, d, ha, hb, hc, hd, h.symm⟩
  · cases h

/-- Dropping at a present index exposes that element in front. -/
theorem drop_get? {α : Type} (l : List α) (n : Nat) (a : α)
    (h : l.get? n = some a) : l.drop n = a :: l.drop (n + 1) := by
  obtain ⟨hlt, hget⟩ := List.get?_eq_some.mp h
  rw [List.drop_eq_getElem_cons hlt]
  congr 1

/-- Dealing distributes a segment of the deck: hands dealt from offset `idx`
plus the part of the deck after them reassemble the deck from `idx` on. -/
theorem deal_cards (deck : List String) (names : List String) (idx i : Nat)
    (ps : List Player) (h : deal deck names idx i = some ps) :
    playersCards ps + ((deck.drop (idx + 4 * names.length) : List String) : Multiset String)
      = ((deck.drop idx : List String) : Multiset String) := by
  induction names generalizing idx i ps with
  | nil =>
    simp only [deal, Option.some.injEq] at h
    subst h
    simp [playersCards]
  | cons name rest ih =>
    simp only [deal] at h
    cases hmk : mkHand deck idx with
    | none => rw [hmk] at h; cases h
    | some hand =>
      rw [hmk] at h
      cases hrec : deal deck rest (idx + 4) (i + 1) with
      | none => rw [hrec] at h; cases h
      | some ps' =>
        rw [hrec] at h
        simp only [Option.some.injEq] at h
        subst h
        obtain ⟨a, b, c, d, ha, hb, hc, hd, hhand⟩ := mkHand_inv deck idx hand hmk
        subst hhand
        have hdrop : deck.drop idx = a :: b :: c :: d :: deck.drop (idx + 4) := by
          rw [drop_get? deck idx a ha, drop_get? deck (idx + 1) b hb,
              drop_get? deck (idx + 2) c hc, drop_get? deck (idx + 3) d hd]
        have hidx : idx + 4 * (rest.length + 1) = (idx + 4) + 4 * rest.length := by ring
        have hih := ih (idx + 4) (i + 1) ps' hrec
        show (handCards _ + playersCards ps')
            + ((deck.drop (idx + 4 * (rest.length + 1)) : List String) : Multiset String)
          = _
        rw [hidx, hdrop]
        rw [show (((a :: b :: c :: d :: deck.drop (idx + 4) : List String)) : Multiset String)
            = {a} + ({b} + ({c} + ({d} + ↑(deck.drop (idx + 4))))) by
          rw [← Multiset.cons_coe, ← Multiset.cons_coe, ← Multiset.cons_coe,
              ← Multiset.cons_coe, ← Multiset.singleton_add, ← Multiset.singleton_add,
              ← Multiset.singleton_add, ← Multiset.singleton_add]]
        rw [← hih]
        show ((([a, b, c, d] : List String)) : Multiset String) + playersCards ps' + _ = _
        rw [show ((([a, b, c, d] : List String)) : Multiset String)
            = {a} + ({b} + ({c} + ({d} + 0))) by
          rw [← Multiset.cons_coe, ← Multiset.cons_coe, ← Multiset.cons_coe,
              ← Multiset.cons_coe, ← Multiset.singleton_add, ← Multiset.singleton_add,
              ← Multiset.singleton_add, ← Multiset.singleton_add]
          rfl]
        abel

/-- A freshly created session holds exactly the given deck. -/
theorem create_allCards (game_id : String) (deck : List String)
    (player_names : List String) (s : GameState)
    (h : create_game game_id deck player_names = some s) :
    allCards s = (deck : Multiset String) := by
  unfold create_game at h
  dsimp only at h
  cases hd : deal deck (if player_names.isEmpty then ["Player1", "Player2"]
      else player_names) 0 0 with
  | none => rw [hd] at h; cases h
  | some players =>
    rw [hd] at h
    simp only [Option.some.injEq] at h
    subst h
    have := deal_cards deck _ 0 0 players hd
    show ↑(deck.drop (4 * (if player_names.isEmpty then ["Player1", "Player2"]
        else player_names).length)) + playersCards players + 0 = (deck : Multiset String)
    rw [add_zero, add_comm]
    rw [show 4 * (if player_names.isEmpty then ["Player1", "Player2"]
        else player_names).length = 0 + 4 * (if player_names.isEmpty
        then ["Player1", "Player2"] else player_names).length by omega]
    rw [this]
    rfl

/-- Unfolding equation for `runMoves` on a non-empty move list. -/
theorem runMoves_cons (s : GameState) (m : Move) (ms : List Move) :
    runMoves s (m :: ms) =
      match apply_move_state s m with
      | ApplyResult.accepted s' _ => runMoves s' ms
      | _ => runMoves s ms := rfl

/-- Iterating moves never grows the multiset of cards in play. -/
theorem runMoves_le (s : GameState) (ms : List Move) :
    allCards (runMoves s ms) ≤ allCards s := by
  induction ms generalizing s with
  | nil => exact le_refl _
  | cons m ms ih =>
    cases happ : apply_move_state s m with
    | accepted s' re =>
      have hrun : runMoves s (m :: ms) = runMoves s' ms := by
        rw [runMoves_cons, happ]
      rw [hrun]
      rcases allCards_step s m s' re happ with heq | ⟨_, d, _, hadd⟩
      · exact le_trans (ih s') (le_of_eq heq)
      · exact le_trans (ih s') (hadd ▸ Multiset.le_add_right _ _)
    | rejected r =>
      have hrun : runMoves s (m :: ms) = runMoves s ms := by
        rw [runMoves_cons, happ]
      rw [hrun]; exact ih s
    | error =>
      have hrun : runMoves s (m :: ms) = runMoves s ms := by
        rw [runMoves_cons, happ]
      rw [hrun]; exact ih s

/-- Full inversion of an accepted move: exactly one of the four move kinds
executed, with the exact new state. -/
theorem apply_accepted_inv (s : GameState) (m : Move) (s' : GameState) (re : Bool)
    (h : apply_move_state s m = ApplyResult.accepted s' re) :
    ∃ idx cur, find_player s.players s.current_player = some (idx, cur) ∧
    ((∃ drawn rest np,
        m.type = some "draw_deck" ∧
        s.draw_pile = drawn :: rest ∧ re = false ∧
        s.players.get? ((idx + 1) % s.players.length) = some np ∧
        s' = { s with draw_pile := rest, draw_pile_count := rest.length, top_discard := some drawn, history := s.history ++ [mkEntry s "drew from deck"], current_player := np.player_id }) ∨
     (∃ slot oldSlot d np cur',
        m.type = some "draw_discard_swap" ∧ m.slot = some slot ∧
        cur.hand.get? slot.toNat = some oldSlot ∧
        s.top_discard = some d ∧ re = false ∧
        cur' = { cur with hand := cur.hand.set slot.toNat ⟨d, true⟩ } ∧
        (s.players.set idx cur').get? ((idx + 1) % (s.players.set idx cur').length) = some np ∧
        s' = { s with players := s.players.set idx cur', top_discard := some oldSlot.card, history := s.history ++ [mkEntry s ("drew from discard and swapped slot " ++ toString slot)], current_player := np.player_id }) ∨
     (∃ slot oldSlot np cur',
        m.type = some "peek" ∧ m.slot = some slot ∧
        cur.hand.get? slot.toNat = some oldSlot ∧ re = false ∧
        cur' = { cur with hand := cur.hand.set slot.toNat { oldSlot with visible := true } } ∧
        (s.players.set idx cur').get? ((idx + 1) % (s.players.set idx cur').length) = some np ∧
        s' = { s with players := s.players.set idx cur', history := s.history ++ [mkEntry s ("peeked at slot " ++ toString slot)], current_player := np.player_id }) ∨
     (∃ players',
        m.type = some "call_cambio" ∧ scoreAll s.players = some players' ∧ re = true ∧
        s' = { s with players := players', turn_phase := "round_end", history := s.history ++ [mkEntry s "called Cambio!"] })) := by
  unfold apply_move_state at h
  cases hv : validate_move_state s m with
  | mk valid reason =>
    rw [hv] at h
    cases valid with
    | false => simp at h
    | true =>
      simp only at h
      cases hf : find_player s.players s.current_player with
      | none => rw [hf] at h; cases h
      | some ic =>
        obtain ⟨idx, cur⟩ := ic
        rw [hf] at h
        replace h : execMove s m idx cur = ApplyResult.accepted s' re := h
        refine ⟨idx, cur, rfl, ?_⟩
        unfold execMove at h
        by_cases h1 : m.type = some "draw_deck"
        · rw [if_pos h1] at h
          cases hp : s.draw_pile with
          | nil => rw [hp] at h; cases h
          | cons drawn rest =>
            rw [hp] at h
            obtain ⟨⟨np, hnp, hs'⟩, hre⟩ := advanceTurn_inv _ _ _ _ h
            exact Or.inl ⟨drawn, rest, np, h1, rfl, hre, hnp, hs'⟩
        · rw [if_neg h1] at h
          by_cases h2 : m.type = some "draw_discard_swap"
          · rw [if_pos h2] at h
            cases hs : m.slot with
            | none => rw [hs] at h; cases h
            | some slot =>
              rw [hs] at h
              simp only at h
              split at h
              · rename_i oldSlot d hh htd
                obtain ⟨⟨np, hnp, hs'⟩, hre⟩ := advanceTurn_inv _ _ _ _ h
                exact Or.inr (Or.inl ⟨slot, oldSlot, d, np, _, h2, rfl, hh, htd, hre,
                  rfl, hnp, hs'⟩)
              · cases h
          · rw [if_neg h2] at h
            by_cases h3 : m.type = some "peek"
            · rw [if_pos h3] at h
              cases hs : m.slot with
              | none => rw [hs] at h; cases h
              | some slot =>
                rw [hs] at h
                simp only at h
                split at h
                · cases h
                · rename_i oldSlot hh
                  obtain ⟨⟨np, hnp, hs'⟩, hre⟩ := advanceTurn_inv _ _ _ _ h
                  exact Or.inr (Or.inr (Or.inl ⟨slot, oldSlot, np, _, h3, rfl, hh,
                    hre, rfl, hnp, hs'⟩))
            · rw [if_neg h3] at h
              by_cases h4 : m.type = some "call_cambio"
              · rw [if_pos h4] at h
                cases hsc : scoreAll s.players with
                | none => rw [hsc] at h; cases h
                | some players' =>
                  rw [hsc] at h
                  injection h with hs' hre
                  exact Or.inr (Or.inr (Or.inr ⟨players', h4, rfl, hre.symm, hs'.symm⟩))
              · rw [if_neg h4] at h
                cases h

/-- A failed validation always carries a reason string. -/
theorem validate_false_reason (s : GameState) (m : Move)
    (h : (validate_move_state s m).1 = false) :
    ∃ r, (validate_move_state s m).2 = some r := by
  unfold validate_move_state at h ⊢
  split_ifs at h ⊢ <;> try exact ⟨_, rfl⟩
  all_goals try simp_all
  all_goals cases hs : m.slot
  all_goals simp only [hs] at h ⊢
  all_goals
    first
      | exact ⟨_, rfl⟩
      | (split_ifs at h ⊢ <;> simp_all)

/-- When validation fails, `apply_move_state` reports exactly the validator's
reason. -/
theorem apply_state_of_validate_false (s : GameState) (m : Move)
    (h : (validate_move_state s m).1 = false) :
    apply_move_state s m = ApplyResult.rejected (validate_move_state s m).2 := by
  unfold apply_move_state
  cases hv : validate_move_state s m with
  | mk valid reason =>
    rw [hv] at h
    cases valid with
    | false => rfl
    | true => cases h

/-! ## Claim theorems -/

/-- C1: starting from a created session (any duplicate-free shuffled deck) and
along every sequence of moves accepted through the move-application path, the
multiset of cards across the draw pile, all hand slots and the discard top
never gains a card that was not already present and never holds a card twice;
one accepted step removes at most the previous discard top, and only when an
accepted `draw_deck` overwrites it. -/
theorem c1_card_conservation :
    (∀ gid deck names s₀, deck.Nodup → create_game gid deck names = some s₀ →
      allCards s₀ = (deck : Multiset String) ∧ (allCards s₀).Nodup) ∧
    (∀ s m s' re, apply_move_state s m = ApplyResult.accepted s' re →
      allCards s' ≤ allCards s ∧
      ((allCards s).Nodup → (allCards s').Nodup) ∧
      (allCards s' = allCards s ∨
        (m.type = some "draw_deck" ∧ ∃ d, s.top_discard = some d ∧
          allCards s = allCards s' + {d}))) ∧
    (∀ gid deck names s₀ ms, deck.Nodup → create_game gid deck names = some s₀ →
      allCards (runMoves s₀ ms) ≤ (deck : Multiset String) ∧
      (allCards (runMoves s₀ ms)).Nodup) := by
  refine ⟨?_, ?_, ?_⟩
  · intro gid deck names s₀ hnd hc
    have hall := create_allCards gid deck names s₀ hc
    exact ⟨hall, hall ▸ (Multiset.coe_nodup.mpr hnd)⟩
  · intro s m s' re h
    have hstep := allCards_step s m s' re h
    have hle : allCards s' ≤ allCards s := by
      rcases hstep with heq | ⟨_, d, _, hadd⟩
      · exact le_of_eq heq
      · exact hadd ▸ Multiset.le_add_right _ _
    exact ⟨hle, fun hnd => Multiset.nodup_of_le hle hnd, hstep⟩
  · intro gid deck names s₀ ms hnd hc
    have h0 := create_allCards gid deck names s₀ hc
    have hle := runMoves_le s₀ ms
    rw [h0] at hle
    exact ⟨hle, Multiset.nodup_of_le hle (Multiset.coe_nodup.mpr hnd)⟩

/-- Concrete instantiation of C1 on a created 2-player session and a draw. -/
theorem c1_card_conservation_witness :
    allCards (runMoves demoState [⟨some "draw_deck", none⟩]) ≤ (demoDeck : Multiset String) ∧
    (allCards (runMoves demoState [⟨some "draw_deck", none⟩])).Nodup :=
  c1_card_conservation.2.2 "demo" demoDeck ["Alice", "Bob"] demoState
    [⟨some "draw_deck", none⟩] (by decide) (by decide)

/-- C9: after creation and after every accepted move, the redundant
`draw_pile_count` field equals the length of the draw pile. -/
theorem c9_draw_pile_count :
    (∀ gid deck names s, create_game gid deck names = some s →
      s.draw_pile_count = s.draw_pile.length) ∧
    (∀ s m s' re, s.draw_pile_count = s.draw_pile.length →
      apply_move_state s m = ApplyResult.accepted s' re →
      s'.draw_pile_count = s'.draw_pile.length) := by
  constructor
  · intro gid deck names s h
    unfold create_game at h
    dsimp only at h
    cases hd : deal deck (if names.isEmpty then ["Player1", "Player2"]
        else names) 0 0 with
    | none => rw [hd] at h; cases h
    | some players =>
      rw [hd] at h
      simp only [Option.some.injEq] at h
      subst h
      rfl
  · intro s m s' re hcount h
    obtain ⟨idx, cur, hf, hcase⟩ := apply_accepted_inv s m s' re h
    rcases hcase with ⟨drawn, rest, np, _, _, _, _, hs'⟩ |
        ⟨slot, oldSlot, d, np, cur', _, _, _, _, _, _, _, hs'⟩ |
        ⟨slot, oldSlot, np, cur', _, _, _, _, _, _, hs'⟩ |
        ⟨players', _, _, _, hs'⟩ <;> subst hs' <;> first | rfl | exact hcount

/-- Concrete instantiation of C9 on a freshly created session. -/
theorem c9_draw_pile_count_witness :
    demoState.draw_pile_count = demoState.draw_pile.length :=
  c9_draw_pile_count.1 "demo" demoDeck ["Alice", "Bob"] demoState (by decide)

/-- C2: once a stored session's `turn_phase` is `round_end`, every move
submission of any kind is rejected with the reason "Round has ended" and the
whole store — hence the session's players, piles, discard top and history —
is left unchanged. -/
theorem c2_round_end_terminal :
    ∀ (store : Store) gid s m, storeGet store gid = some s →
      s.turn_phase = "round_end" →
      apply_move store gid m =
        some (MoveResult.invalid (some "Round has ended"), store) := by
  intro store gid s m hs hphase
  have hv : apply_move_state s m = ApplyResult.rejected (some "Round has ended") := by
    unfold apply_move_state validate_move_state
    rw [if_pos hphase]
  unfold apply_move
  rw [hs]
  show (match apply_move_state s m with
    | ApplyResult.rejected r => some (MoveResult.invalid r, store)
    | ApplyResult.accepted s' re => some (MoveResult.valid s' re, storeSet store gid s')
    | ApplyResult.error => none) = _
  rw [hv]

/-- Concrete instantiation of C2 on a round-ended demo session. -/
theorem c2_round_end_terminal_witness :
    apply_move [("demo", demoEndState)] "demo" ⟨some "draw_deck", none⟩ =
      some (MoveResult.invalid (some "Round has ended"), [("demo", demoEndState)]) :=
  c2_round_end_terminal [("demo", demoEndState)] "demo" demoEndState
    ⟨some "draw_deck", none⟩ (by rfl) (by rfl)

/-- C6: validation is a pure function of the store (modelled without any state
output), and every move that fails validation makes `apply_move` return an
invalid result carrying a reason, leaving the store — hence all session
state — unchanged, without raising. -/
theorem c6_rejection_pure :
    ∀ (store : Store) gid m, (validate_move store gid m).1 = false →
      (∃ r, (validate_move store gid m).2 = some r) ∧
      apply_move store gid m =
        some (MoveResult.invalid (validate_move store gid m).2, store) := by
  intro store gid m h
  unfold validate_move at h ⊢
  cases hget : storeGet store gid with
  | none =>
    refine ⟨⟨"Game not found", rfl⟩, ?_⟩
    unfold apply_move
    rw [hget]
  | some s =>
    rw [hget] at h
    replace h : (validate_move_state s m).1 = false := h
    refine ⟨validate_false_reason s m h, ?_⟩
    unfold apply_move
    rw [hget]
    show (match apply_move_state s m with
      | ApplyResult.rejected r => some (MoveResult.invalid r, store)
      | ApplyResult.accepted s' re => some (MoveResult.valid s' re, storeSet store gid s')
      | ApplyResult.error => none) = _
    rw [apply_state_of_validate_false s m h]

/-- Concrete instantiation of C6 on an unknown move type. -/
theorem c6_rejection_pure_witness :
    (∃ r, (validate_move [("demo", demoState)] "demo" ⟨some "bogus", none⟩).2 = some r) ∧
    apply_move [("demo", demoState)] "demo" ⟨some "bogus", none⟩ =
      some (MoveResult.invalid
        (validate_move [("demo", demoState)] "demo" ⟨some "bogus", none⟩).2,
        [("demo", demoState)]) :=
  c6_rejection_pure [("demo", demoState)] "demo" ⟨some "bogus", none⟩ (by decide)

/-- C5: every accepted non-terminal move hands the turn to the player after
the acting one in player-list order, wrapping from the last back to the first
(so with 2 players the current player alternates). -/
theorem c5_round_robin :
    ∀ s m s' i cur q, apply_move_state s m = ApplyResult.accepted s' false →
      find_player s.players s.current_player = some (i, cur) →
      s.players.get? ((i + 1) % s.players.length) = some q →
      s'.current_player = q.player_id := by
  intro s m s' i cur q h hf hq
  obtain ⟨idx, cur2, hf2, hcase⟩ := apply_accepted_inv s m s' false h
  rw [hf] at hf2
  injection hf2 with hpair
  cases hpair
  have hgi : s.players.get? i = some cur := (find_player_spec _ _ _ _ hf).1
  have hilt : i < s.players.length := (List.get?_eq_some.mp hgi).choose
  rcases hcase with ⟨drawn, rest, np, mt, hp, hre, hnp, hs'⟩ |
      ⟨slot, oldSlot, d, np, cur', mt, hslot, hh, htd, hre, hcur', hnp, hs'⟩ |
      ⟨slot, oldSlot, np, cur', mt, hslot, hh, hre, hcur', hnp, hs'⟩ |
      ⟨players', mt, hsc, hre, hs'⟩
  · subst hs'
    rw [hnp] at hq
    injection hq with hq
    rw [hq]
  · subst hs'
    rw [List.length_set] at hnp
    show np.player_id = q.player_id
    by_cases hji : (i + 1) % s.players.length = i
    · rw [hji] at hnp hq
      rw [List.get?_set_eq_of_lt _ hilt] at hnp
      injection hnp with hnp
      rw [hgi] at hq
      injection hq with hq
      rw [← hnp, ← hq, hcur']
    · rw [List.get?_set_ne _ _ (fun hne => hji hne.symm)] at hnp
      rw [hnp] at hq
      injection hq with hq
      rw [hq]
  · subst hs'
    rw [List.length_set] at hnp
    show np.player_id = q.player_id
    by_cases hji : (i + 1) % s.players.length = i
    · rw [hji] at hnp hq
      rw [List.get?_set_eq_of_lt _ hilt] at hnp
      injection hnp with hnp
      rw [hgi] at hq
      injection hq with hq
      rw [← hnp, ← hq, hcur']
    · rw [List.get?_set_ne _ _ (fun hne => hji hne.symm)] at hnp
      rw [hnp] at hq
      injection hq with hq
      rw [hq]
  · cases hre

/-- Concrete instantiation of C5: on the demo session p1 draws and the turn
passes to p2. -/
theorem c5_round_robin_witness : demoAfterDraw.current_player = "p2" := by
  have h : apply_move_state demoState ⟨some "draw_deck", none⟩ =
      ApplyResult.accepted demoAfterDraw false := by decide
  have hf : find_player demoState.players demoState.current_player = some (0, { player_id := "p1", name := "Alice", seat := 0, hand := [⟨"AH", true⟩, ⟨"2H", false⟩, ⟨"3H", true⟩, ⟨"4H", false⟩], score := 0 }) := by decide
  have hq : demoState.players.get? ((0 + 1) % demoState.players.length) = some { player_id := "p2", name := "Bob", seat := 1, hand := [⟨"5H", true⟩, ⟨"6H", false⟩, ⟨"7H", true⟩, ⟨"8H", false⟩], score := 0 } := by decide
  exact c5_round_robin demoState ⟨some "draw_deck", none⟩ demoAfterDraw 0 _ _ h hf hq

/-- C4: an accepted `draw_discard_swap(slot)` puts the previous discard top
into the acting player's slot, marked visible, moves the previous slot card to
the discard top, and keeps the total number of cards in play unchanged. -/
theorem c4_discard_swap :
    ∀ s (k : Int) s' re,
      apply_move_state s ⟨some "draw_discard_swap", some k⟩ = ApplyResult.accepted s' re →
      ∃ i cur oldSlot d, find_player s.players s.current_player = some (i, cur) ∧
        cur.hand.get? k.toNat = some oldSlot ∧ s.top_discard = some d ∧
        (s'.players.get? i).map (fun p => p.hand.get? k.toNat) = some (some ⟨d, true⟩) ∧
        s'.top_discard = some oldSlot.card ∧
        Multiset.card (allCards s') = Multiset.card (allCards s) := by
  intro s k s' re h
  obtain ⟨idx, cur, hf, hcase⟩ := apply_accepted_inv s _ s' re h
  rcases hcase with ⟨_, _, _, mt, _⟩ |
      ⟨slot, oldSlot, d, np, cur', mt, hslot, hh, htd, hre, hcur', hnp, hs'⟩ |
      ⟨_, _, _, _, mt, _⟩ | ⟨_, mt, _⟩
  · simp at mt
  · have hk : k = slot := by injection hslot
    subst hk
    have hgi : s.players.get? idx = some cur := (find_player_spec _ _ _ _ hf).1
    have hilt : idx < s.players.length := (List.get?_eq_some.mp hgi).choose
    have hklt : k.toNat < cur.hand.length := (List.get?_eq_some.mp hh).choose
    have hcard : Multiset.card (allCards s') = Multiset.card (allCards s) := by
      rcases allCards_step s ⟨some "draw_discard_swap", some k⟩ s' re h with heq |
          ⟨mt2, _⟩
      · rw [heq]
      · simp at mt2
    refine ⟨idx, cur, oldSlot, d, hf, hh, htd, ?_, ?_, hcard⟩
    · subst hs'
      show ((s.players.set idx cur').get? idx).map (fun p => p.hand.get? k.toNat)
          = some (some ⟨d, true⟩)
      rw [List.get?_set_eq_of_lt _ hilt]
      show some (cur'.hand.get? k.toNat) = some (some ⟨d, true⟩)
      rw [hcur']
      show some ((cur.hand.set k.toNat ⟨d, true⟩).get? k.toNat) = some (some ⟨d, true⟩)
      rw [List.get?_set_eq_of_lt _ hklt]
    · subst hs'
      rfl
  · simp at mt
  · simp at mt

/-- Concrete instantiation of C4: p2 swaps the discard into slot 1 of its
hand in the demo session after p1 drew. -/
theorem c4_discard_swap_witness :
    ∃ i cur oldSlot d,
      find_player demoAfterDraw.players demoAfterDraw.current_player = some (i, cur) ∧
      cur.hand.get? (1 : Int).toNat = some oldSlot ∧
      demoAfterDraw.top_discard = some d ∧
      (demoAfterSwap.players.get? i).map (fun p => p.hand.get? (1 : Int).toNat)
        = some (some ⟨d, true⟩) ∧
      demoAfterSwap.top_discard = some oldSlot.card ∧
      Multiset.card (allCards demoAfterSwap) = Multiset.card (allCards demoAfterDraw) :=
  c4_discard_swap demoAfterDraw 1 demoAfterSwap false (by decide)

/-- The code's scoring agrees with the spec's value table on all 52 cards. -/
theorem table_get_value :
    ∀ rv ∈ spec_card_values, get_card_value rv.1 = some rv.2 := by decide

/-- Wherever the spec table defines a value, the code computes that value. -/
theorem spec_value_agree (c : String) (h : (spec_value c).isSome) :
    get_card_value c = spec_value c := by
  unfold spec_value at h ⊢
  cases hfind : spec_card_values.find? (fun rv => rv.1 = c) with
  | none => rw [hfind] at h; simp at h
  | some rv =>
    have hmem := List.mem_of_find?_eq_some hfind
    have hc : rv.1 = c := by
      have hpred := List.find?_some hfind
      simpa using hpred
    rw [← hc]
    exact table_get_value rv hmem

/-- On a hand of spec-valued cards the code's hand score equals the spec's. -/
theorem hand_score_spec (hand : List CardSlot)
    (h : ∀ cs ∈ hand, (spec_value cs.card).isSome) :
    hand_score hand = spec_sum hand := by
  induction hand with
  | nil => rfl
  | cons cs t ih =>
    have hcs := h cs (List.mem_cons_self cs t)
    have hrest : ∀ x ∈ t, (spec_value x.card).isSome :=
      fun x hx => h x (List.mem_cons_of_mem cs hx)
    show (match get_card_value cs.card, sumValues (t.map (fun c => c.card)) with
      | some v, some sm => some (v + sm)
      | _, _ => none) = spec_sum (cs :: t)
    rw [spec_value_agree cs.card hcs,
        show sumValues (t.map (fun c => c.card)) = hand_score t from rfl, ih hrest]
    rfl

/-- The `call_cambio` scoring loop: on spec-valued hands it succeeds and turns
every player into the revealed, spec-scored version of itself. -/
theorem scoreAll_spec (ps : List Player) :
    ∀ ps', (∀ p ∈ ps, ∀ cs ∈ p.hand, (spec_value cs.card).isSome) →
    scoreAll ps = some ps' →
    ps'.length = ps.length ∧
    ∀ j p, ps.get? j = some p → ∃ v, spec_sum p.hand = some v ∧
      ps'.get? j = some { p with hand := p.hand.map (fun cs => { cs with visible := true }), score := v } := by
  induction ps with
  | nil =>
    intro ps' hcards h
    simp only [scoreAll, Option.some.injEq] at h
    subst h
    exact ⟨rfl, by intro j p hp; simp at hp⟩
  | cons p t ih =>
    intro ps' hcards h
    simp only [scoreAll] at h
    cases hv : hand_score p.hand with
    | none => rw [hv] at h; cases h
    | some v =>
      rw [hv] at h
      cases hr : scoreAll t with
      | none => rw [hr] at h; cases h
      | some t' =>
        rw [hr] at h
        simp only [Option.some.injEq] at h
        subst h
        have hhead : spec_sum p.hand = some v := by
          rw [← hand_score_spec p.hand (hcards p (List.mem_cons_self p t)), hv]
        have htail := ih t' (fun q hq cs hcs =>
          hcards q (List.mem_cons_of_mem p hq) cs hcs) hr
        constructor
        · show t'.length + 1 = t.length + 1
          rw [htail.1]
        · intro j q hq
          cases j with
          | zero =>
            simp only [List.get?_cons_zero, Option.some.injEq] at hq
            subst hq
            exact ⟨v, hhead, rfl⟩
          | succ j =>
            simp only [List.get?_cons_succ] at hq ⊢
            exact htail.2 j q hq

/-- C3: an accepted `call_cambio` reveals every slot of every hand, scores
every player with the sum of the spec's card values (K=0, A=1, numeric face
value, J=11, Q=12), sets `turn_phase` to `round_end`, appends exactly one
history entry, does not advance the turn, and reports round termination. -/
theorem c3_call_cambio (s : GameState) (sl : Option Int) (s' : GameState) (re : Bool)
    (hcards : ∀ p ∈ s.players, ∀ cs ∈ p.hand, (spec_value cs.card).isSome)
    (h : apply_move_state s ⟨some "call_cambio", sl⟩ = ApplyResult.accepted s' re) :
    re = true ∧ s'.turn_phase = "round_end" ∧ s'.current_player = s.current_player ∧
    s'.history = s.history ++ [mkEntry s "called Cambio!"] ∧
    s'.players.length = s.players.length ∧
    (∀ j p, s.players.get? j = some p → ∃ v, spec_sum p.hand = some v ∧
      s'.players.get? j = some { p with hand := p.hand.map (fun cs => { cs with visible := true }), score := v }) := by
  obtain ⟨idx, cur, hf, hcase⟩ := apply_accepted_inv s _ s' re h
  rcases hcase with ⟨_, _, _, mt, _⟩ | ⟨_, _, _, _, _, mt, _⟩ |
      ⟨_, _, _, _, mt, _⟩ | ⟨players', mt, hsc, hre, hs'⟩
  · simp at mt
  · simp at mt
  · simp at mt
  · subst hs'
    have hspec := scoreAll_spec s.players players' hcards hsc
    exact ⟨hre, rfl, rfl, rfl, hspec.1, hspec.2⟩


/-- Concrete instantiation of C3: `call_cambio` on the demo session. -/
theorem c3_call_cambio_witness :
    true = true ∧ demoCambio.turn_phase = "round_end" ∧
    demoCambio.current_player = demoState.current_player ∧
    demoCambio.history = demoState.history ++ [mkEntry demoState "called Cambio!"] ∧
    demoCambio.players.length = demoState.players.length ∧
    (∀ j p, demoState.players.get? j = some p → ∃ v, spec_sum p.hand = some v ∧
      demoCambio.players.get? j = some { p with hand := p.hand.map (fun cs => { cs with visible := true }), score := v }) :=
  c3_call_cambio demoState none demoCambio true (by decide) (by decide)

/-- A 4-card deal at offset `idx` succeeds exactly when the deck reaches
position `idx + 3`. -/
theorem mkHand_isSome (deck : List String) (idx : Nat) :
    (mkHand deck idx).isSome ↔ idx + 4 ≤ deck.length := by
  unfold mkHand
  constructor
  · intro h
    split at h
    · rename_i a b c d ha hb hc hd
      have hlt := (List.get?_eq_some.mp hd).choose
      omega
    · simp at h
  · intro h
    rw [List.get?_eq_get (show idx < deck.length by omega),
        List.get?_eq_get (show idx + 1 < deck.length by omega),
        List.get?_eq_get (show idx + 2 < deck.length by omega),
        List.get?_eq_get (show idx + 3 < deck.length by omega)]
    rfl

/-- The dealing loop succeeds exactly when the deck covers all hands (or there
is no player at all). -/
theorem deal_isSome (deck : List String) :
    ∀ (names : List String) (idx i : Nat),
      (deal deck names idx i).isSome ↔
        (names = [] ∨ idx + 4 * names.length ≤ deck.length) := by
  intro names
  induction names with
  | nil => intro idx i; simp [deal]
  | cons name rest ih =>
    intro idx i
    simp only [deal]
    cases hmk : mkHand deck idx with
    | none =>
      have hn : ¬(idx + 4 ≤ deck.length) := by
        intro hle
        have h2 := (mkHand_isSome deck idx).mpr hle
        rw [hmk] at h2
        exact absurd h2 (by simp)
      constructor
      · intro h2; simp at h2
      · rintro (habs | hle)
        · cases habs
        · exact absurd (show idx + 4 ≤ deck.length by
            simp only [List.length_cons] at hle; omega) hn
    | some hand =>
      cases hd : deal deck rest (idx + 4) (i + 1) with
      | none =>
        have hrec := ih (idx + 4) (i + 1)
        rw [hd] at hrec
        have hrec2 : ¬(rest = [] ∨ idx + 4 + 4 * rest.length ≤ deck.length) := by
          intro hor
          have h2 := hrec.mpr hor
          simp at h2
        constructor
        · intro h2; simp at h2
        · rintro (habs | hle)
          · cases habs
          · refine absurd ?_ hrec2
            right
            simp only [List.length_cons] at hle
            omega
      | some ps =>
        have hmks := (mkHand_isSome deck idx).mp (by rw [hmk]; rfl)
        have hds := (ih (idx + 4) (i + 1)).mp (by rw [hd]; rfl)
        simp only [Option.isSome_some, true_iff]
        right
        rcases hds with he | hle
        · subst he
          simpa using hmks
        · simp only [List.length_cons]
          omega

/-- C7 counterexample: creating a session with a single player name — fewer
than the two the claim requires — succeeds instead of failing. -/
theorem c7_counterexample :
    (["Alice"] : List String).length < 2 ∧
    (create_game "g" create_deck ["Alice"]).isSome = true := by
  exact ⟨by decide, by decide⟩

/-- C7 (amended): session creation never rejects too-few names; over a 52-card
deck it succeeds exactly when the name list is empty (replaced by the two
default players) or has at most 13 names, and it fails — by an unhandled
index error, not a guarded rejection — exactly when the player count times 4
exceeds 52. -/
theorem c7_create_guard (gid : String) (deck : List String) (names : List String)
    (hdeck : deck.length = 52) :
    (create_game gid deck names).isSome ↔ (names = [] ∨ names.length ≤ 13) := by
  unfold create_game
  dsimp only
  by_cases hne : names.isEmpty
  · rw [if_pos hne]
    have hds : (deal deck ["Player1", "Player2"] 0 0).isSome :=
      (deal_isSome deck ["Player1", "Player2"] 0 0).mpr
        (Or.inr (by simp only [List.length_cons, List.length_nil]; omega))
    cases hd : deal deck ["Player1", "Player2"] 0 0 with
    | none => rw [hd] at hds; exact absurd hds (by simp)
    | some players =>
      simp only [Option.isSome_some, true_iff]
      exact Or.inl (List.isEmpty_iff.mp hne)
  · rw [if_neg hne]
    have hiff : ∀ o : Option (List Player),
        (match o with
          | none => (none : Option GameState)
          | some players =>
              some { game_id := gid, variant := "cambio_standard", players := players, draw_pile := deck.drop (4 * names.length), draw_pile_count := (deck.drop (4 * names.length)).length, top_discard := none, current_player := "p1", turn_phase := "awaiting_action", history := [], metadata := { started_at := "2025-10-25T08:00:00Z", round := 1 } }).isSome
          = o.isSome := by
      intro o; cases o <;> rfl
    rw [hiff]
    rw [deal_isSome deck names 0 0]
    have hne' : names ≠ [] := fun he => hne (by rw [he]; rfl)
    constructor
    · rintro (he | hle)
      · exact absurd he hne'
      · right; omega
    · rintro (he | hle)
      · exact absurd he hne'
      · right; omega

/-- Concrete instantiation of the amended C7 on a single-name list. -/
theorem c7_create_guard_witness :
    (create_game "g" create_deck ["Alice"]).isSome ↔
      (["Alice"] = ([] : List String) ∨ (["Alice"] : List String).length ≤ 13) :=
  c7_create_guard "g" create_deck ["Alice"] (by decide)

/-- C8 counterexample: submitting a move for an unknown session id yields an
HTTP 400 — the same error class the endpoint uses for illegal moves — and not
a 404-class error. -/
theorem c8_counterexample :
    submit_move_endpoint [] "missing" ⟨some "draw_deck", none⟩ =
      some (Except.error { status_code := 400, detail := some "Game not found" }, []) ∧
    (400 : Nat) ≠ 404 :=
  ⟨rfl, by decide⟩

/-- C8 (amended): a move submitted for a nonexistent session id is rejected by
the move endpoint as a 400 with detail "Game not found" — the same error class
as an illegal move, distinguishable only by the detail string — while the
state-lookup endpoint surfaces the same id as a 404. -/
theorem c8_not_found_class :
    ∀ (store : Store) gid m, storeGet store gid = none →
      submit_move_endpoint store gid m =
        some (Except.error { status_code := 400, detail := some "Game not found" },
          store) ∧
      get_game_endpoint store gid =
        Except.error { status_code := 404, detail := some "Game not found" } := by
  intro store gid m h
  constructor
  · unfold submit_move_endpoint apply_move
    rw [h]
  · unfold get_game_endpoint
    rw [h]

/-- Concrete instantiation of the amended C8 on a one-session store. -/
theorem c8_not_found_class_witness :
    submit_move_endpoint [("demo", demoState)] "other" ⟨some "peek", some 0⟩ =
      some (Except.error { status_code := 400, detail := some "Game not found" },
        [("demo", demoState)]) ∧
    get_game_endpoint [("demo", demoState)] "other" =
      Except.error { status_code := 404, detail := some "Game not found" } :=
  c8_not_found_class [("demo", demoState)] "other" ⟨some "peek", some 0⟩ (by rfl)

/-- C10: `patch_state` raises (ValueError) exactly when the id is unknown;
otherwise it succeeds unconditionally — no rule validation, even on a
`round_end` session — overwriting exactly the top-level fields named in the
patch; and the PATCH endpoint exposes this write path over HTTP, mapping only
the unknown-id error to a 404. -/
theorem c10_patch_unvalidated :
    (∀ (store : Store) gid p, patch_state store gid p = none ↔ storeGet store gid = none) ∧
    (∀ (store : Store) gid p s, storeGet store gid = some s →
      patch_state store gid p =
        some (applyPatch s p, storeSet store gid (applyPatch s p)) ∧
      patch_game_endpoint store gid p =
        (Except.ok (applyPatch s p), storeSet store gid (applyPatch s p))) ∧
    (∀ (store : Store) gid p, storeGet store gid = none →
      patch_game_endpoint store gid p =
        (Except.error { status_code := 404, detail := some ("Game " ++ gid ++ " not found") }, store)) ∧
    (∀ s p tp, p.turn_phase = some tp → (applyPatch s p).turn_phase = tp) ∧
    (∀ s p ps', p.players = some ps' → (applyPatch s p).players = ps') ∧
    (∀ s p dp, p.draw_pile = some dp → (applyPatch s p).draw_pile = dp) ∧
    (∀ s p n, p.draw_pile_count = some n → (applyPatch s p).draw_pile_count = n) ∧
    (∀ s p td, p.top_discard = some td → (applyPatch s p).top_discard = td) ∧
    (∀ s p cp, p.current_player = some cp → (applyPatch s p).current_player = cp) ∧
    (∀ s p hh, p.history = some hh → (applyPatch s p).history = hh) ∧
    (∀ s p, p.turn_phase = none → (applyPatch s p).turn_phase = s.turn_phase) := by
  refine ⟨?_, ?_, ?_, ?_, ?_, ?_, ?_, ?_, ?_, ?_, ?_⟩
  · intro store gid p
    unfold patch_state
    cases h : storeGet store gid with
    | none => simp
    | some s => simp
  · intro store gid p s h
    constructor
    · unfold patch_state
      rw [h]
    · unfold patch_game_endpoint patch_state
      rw [h]
  · intro store gid p h
    unfold patch_game_endpoint patch_state
    rw [h]
  · intro s p tp h; show p.turn_phase.getD s.turn_phase = tp; rw [h]; rfl
  · intro s p ps' h; show p.players.getD s.players = ps'; rw [h]; rfl
  · intro s p dp h; show p.draw_pile.getD s.draw_pile = dp; rw [h]; rfl
  · intro s p n h; show p.draw_pile_count.getD s.draw_pile_count = n; rw [h]; rfl
  · intro s p td h; show p.top_discard.getD s.top_discard = td; rw [h]; rfl
  · intro s p cp h; show p.current_player.getD s.current_player = cp; rw [h]; rfl
  · intro s p hh h; show p.history.getD s.history = hh; rw [h]; rfl
  · intro s p h; show p.turn_phase.getD s.turn_phase = s.turn_phase; rw [h]; rfl

/-- Concrete instantiation of C10: patching a `round_end` session succeeds. -/
theorem c10_patch_unvalidated_witness :
    patch_state [("demo", demoEndState)] "demo" { turn_phase := some "awaiting_action" } =
      some (applyPatch demoEndState { turn_phase := some "awaiting_action" },
        storeSet [("demo", demoEndState)] "demo"
          (applyPatch demoEndState { turn_phase := some "awaiting_action" })) ∧
    patch_game_endpoint [("demo", demoEndState)] "demo" { turn_phase := some "awaiting_action" } =
      (Except.ok (applyPatch demoEndState { turn_phase := some "awaiting_action" }),
        storeSet [("demo", demoEndState)] "demo"
          (applyPatch demoEndState { turn_phase := some "awaiting_action" })) :=
  c10_patch_unvalidated.2.1 [("demo", demoEndState)] "demo"
    { turn_phase := some "awaiting_action" } demoEndState (by rfl)

end Cambio
